import Mathlib

/-!
Verification of the pip2sysdep dependency-resolution engine
(`src/pip2sysdep/__init__.py`), shallowly embedded in Lean.

Modelling conventions:
* A parsed TOML mapping document is a `Dict`: an association list from keys
  to `Value`s (string, integer, array, table).  Python `dict.get` is
  `lookupD` (first match wins; parsed TOML dictionaries have distinct keys).
* Python's bounded recursion in `_expand_deps` is modelled with an explicit
  `fuel : Nat` budget; `none` models a raised `RecursionError`.
* Dynamic behaviour the embedding does not cover (a `__meta__` entry that is
  not a table, a `deps` entry that is not an array, a non-string command
  template) is mapped to `none` / `PyErr.dynError`; theorems that quantify
  over documents carry the corresponding well-formedness hypotheses, which
  match the documented mapping-document format.
* Python set membership hashes its argument; only strings and integers among
  our values are hashable, and `convert` only reaches its seen-set after the
  `Value.hashable` guard, mirroring the `TypeError` an unhashable token
  would raise inside the deduplicating comprehension.
-/

/-- A parsed TOML value, restricted to the shapes the resolver manipulates. -/
inductive Value where
  | str (s : String)
  | int (n : Int)
  | list (items : List Value)
  | table (fields : List (String × Value))

/-- A parsed TOML table: an association list with distinct keys. -/
abbrev Dict := List (String × Value)

/-- `d.get key` for a Python dictionary (association list, first match wins). -/
def lookupD {α : Type} : List (String × α) → String → Option α
  | [], _ => none
  | (k, v) :: rest, key => if k = key then some v else lookupD rest key

/-- Equality test backing Python set membership (`x in seen`).  Python hashes
the candidate first, so only hashable values (strings, integers here) ever
reach a set; on those this is true structural equality.  The resolver guards
every set operation with `Value.hashable`. -/
def Value.hashEq : Value → Value → Bool
  | .str a, .str b => a == b
  | .int a, .int b => a == b
  | _, _ => false

instance : BEq Value := ⟨Value.hashEq⟩

/-- Whether a value may be put into a Python `set` (hashable). -/
def Value.hashable : Value → Bool
  | .str _ => true
  | .int _ => true
  | _ => false

/-- `mapping.get('__meta__', {})`: absent means the empty table; a non-table
`__meta__` entry is outside the modelled fragment (`none`). -/
def metaOf (d : Dict) : Option Dict :=
  match lookupD d "__meta__" with
  | none => some []
  | some (.table t) => some t
  | some _ => none

/-- `key in d and isinstance(d[key], list)`: the list stored at `key`. -/
def listAt (d : Dict) (k : String) : Option (List Value) :=
  match lookupD d k with
  | some (.list l) => some l
  | _ => none

/-- `as` is an initial segment of `bs` (over characters). -/
def startsWithChars : List Char → List Char → Bool
  | [], _ => true
  | _ :: _, [] => false
  | a :: as, b :: bs => a == b && startsWithChars as bs

/-- Python `s.startswith(p)`. -/
def pyStartsWith (s p : String) : Bool := startsWithChars p.data s.data

/-- Python `s.endswith(p)`. -/
def pyEndsWith (s p : String) : Bool := startsWithChars p.data.reverse s.data.reverse

/-- The bare-name promotion of `_expand_deps`: a token that does not start
with `__` is promoted to `__token__` when that key holds a list in the
mapping root or in `__meta__`; otherwise the token itself is looked up. -/
def promoteLookup (mapping meta : Dict) (item : String) : String :=
  if !pyStartsWith item "__" && (listAt mapping ("__" ++ item ++ "__")).isSome then
    "__" ++ item ++ "__"
  else if !pyStartsWith item "__" && (listAt meta ("__" ++ item ++ "__")).isSome then
    "__" ++ item ++ "__"
  else item

/-- The `for item in items` loop body of `_expand_deps`; `f` is the
recursive expansion at the remaining recursion budget. -/
def expandLoop (f : Dict → List Value → Option (List Value)) (mapping meta : Dict) :
    List Value → Option (List Value)
  | [] => some []
  | item :: rest =>
    match item with
    | .str s =>
      let lk := promoteLookup mapping meta s
      match listAt mapping lk with
      | some defn =>
        match f mapping defn, expandLoop f mapping meta rest with
        | some e, some r => some (e ++ r)
        | _, _ => none
      | none =>
        match listAt meta lk with
        | some defn =>
          match f meta defn, expandLoop f mapping meta rest with
          | some e, some r => some (e ++ r)
          | _, _ => none
        | none =>
          match expandLoop f mapping meta rest with
          | some r => some (.str s :: r)
          | none => none
    | _ =>
      match expandLoop f mapping meta rest with
      | some r => some (item :: r)
      | none => none

/-- `Pip2SysDep._expand_deps(mapping, items)`.  Each Python call consumes one
recursion frame: `fuel = 0` models `RecursionError` (`none`). -/
def expand_deps : Nat → Dict → List Value → Option (List Value)
  | 0, _, _ => none
  | fuel + 1, mapping, items =>
    match metaOf mapping with
    | none => none
    | some meta => expandLoop (fun m its => expand_deps fuel m its) mapping meta items

/-- The root mapping `{'__meta__': meta}` that `convert` passes to
`_expand_deps`. -/
def rootMapping (meta : Dict) : Dict := [("__meta__", Value.table meta)]

/-- The `if '__always__' in meta: result.extend(_expand_deps(...))` step of
`convert`: the expanded baseline group (empty when `__always__` is absent). -/
def expandAlways (fuel : Nat) (meta : Dict) : Option (List Value) :=
  match lookupD meta "__always__" with
  | none => some []
  | some (.list l) => expand_deps fuel (rootMapping meta) l
  | some _ => none

/-- `content.get(pip_package, {}).get('deps', [])`. -/
def pkgDepsOf (content : Dict) (pkg : String) : Option (List Value) :=
  match lookupD content pkg with
  | none => some []
  | some (.table t) =>
    match lookupD t "deps" with
    | none => some []
    | some (.list l) => some l
    | some _ => none
  | some _ => none

/-- The deduplicating comprehension of `convert`:
`seen = set(); [x for x in result if not (x in seen or seen.add(x))]`. -/
def dedupSeen (seen : List Value) : List Value → List Value
  | [] => []
  | x :: xs => if seen.elem x then dedupSeen seen xs else x :: dedupSeen (x :: seen) xs

/-- The pure body of `Pip2SysDep.convert` on an already-loaded document:
the `'all'` list. -/
def convert_all (fuel : Nat) (content : Dict) (pkg : String) : Option (List Value) :=
  match metaOf content with
  | none => none
  | some meta =>
    match expandAlways fuel meta with
    | none => none
    | some base =>
      match pkgDepsOf content pkg with
      | none => none
      | some deps =>
        match expand_deps fuel (rootMapping meta) deps with
        | none => none
        | some e =>
          let result := base ++ e
          if result.all Value.hashable then some (dedupSeen [] result) else none

/-! ## First-occurrence deduplication

`convert` deduplicates with a seen-set comprehension.  We prove it equal to
the library's canonical first-occurrence deduplication `List.eraseDups`. -/

theorem eraseDups_loop_eq (l acc : List Value) :
    List.eraseDups.loop l acc = acc.reverse ++ dedupSeen acc l := by
  induction l generalizing acc with
  | nil => simp [List.eraseDups.loop, dedupSeen]
  | cons a as ih =>
    simp only [List.eraseDups.loop, dedupSeen]
    cases h : acc.elem a with
    | true => simp [h, ih]
    | false => simp [h, ih (a :: acc)]

theorem dedupSeen_eq_eraseDups (l : List Value) : dedupSeen [] l = l.eraseDups := by
  simp [List.eraseDups, eraseDups_loop_eq]

/-! ## Example documents from the testable properties -/

def meta1 : Dict := [("__always__", Value.list [Value.str "A", Value.str "B"])]

def content1 : Dict :=
  [("__meta__", Value.table meta1),
   ("pkg", Value.table [("deps", Value.list [Value.str "C", Value.str "A"])])]

def content2 : Dict :=
  [("__meta__", Value.table
      [("__always__", Value.list [Value.str "foo"]),
       ("__dev__", Value.list [Value.str "bar", Value.str "__build__"]),
       ("__build__", Value.list [Value.str "baz"])]),
   ("pkg", Value.table [("deps", Value.list [Value.str "__dev__", Value.str "libx"])])]

def meta0 : Dict := [("__always__", Value.list [Value.str "a", Value.str "a"])]

def content0 : Dict := [("__meta__", Value.table meta0)]

theorem convert_all_eraseDups (fuel : Nat) (content : Dict) (pkg : String)
    (meta : Dict) (b d e : List Value)
    (hm : metaOf content = some meta)
    (hb : expandAlways fuel meta = some b)
    (hd : pkgDepsOf content pkg = some d)
    (he : expand_deps fuel (rootMapping meta) d = some e)
    (hh : (b ++ e).all Value.hashable = true) :
    convert_all fuel content pkg = some ((b ++ e).eraseDups) := by
  simp [convert_all, hm, hb, hd, he, hh, dedupSeen_eq_eraseDups]

/-- C1: single-package resolution is order-preserving and
first-occurrence-deduplicated: on a loaded document, `convert(pkg)['all']` is
the expanded `__always__` baseline followed by the package's expanded
dependency list, deduplicated keeping the first occurrence of each literal
(`List.eraseDups`). -/
theorem convert_order_preserving_dedup (fuel : Nat) (content : Dict) (pkg : String)
    (meta : Dict) (b d e : List Value)
    (hm : metaOf content = some meta)
    (hb : expandAlways fuel meta = some b)
    (hd : pkgDepsOf content pkg = some d)
    (he : expand_deps fuel (rootMapping meta) d = some e)
    (hh : (b ++ e).all Value.hashable = true) :
    convert_all fuel content pkg = some ((b ++ e).eraseDups) :=
  convert_all_eraseDups fuel content pkg meta b d e hm hb hd he hh

/-- C1 witness: `__always__ = [A, B]`, package deps `[C, A]` resolve to
exactly `[A, B, C]`. -/
theorem convert_order_preserving_dedup_witness :
    metaOf content1 = some meta1 ∧
    expandAlways 5 meta1 = some [Value.str "A", Value.str "B"] ∧
    pkgDepsOf content1 "pkg" = some [Value.str "C", Value.str "A"] ∧
    expand_deps 5 (rootMapping meta1) [Value.str "C", Value.str "A"] =
      some [Value.str "C", Value.str "A"] ∧
    ([Value.str "A", Value.str "B"] ++ [Value.str "C", Value.str "A"]).all Value.hashable
      = true ∧
    convert_all 5 content1 "pkg" = some [Value.str "A", Value.str "B", Value.str "C"] := by
  refine ⟨rfl, rfl, rfl, rfl, rfl, ?_⟩
  exact convert_order_preserving_dedup 5 content1 "pkg" meta1
    [Value.str "A", Value.str "B"] [Value.str "C", Value.str "A"]
    [Value.str "C", Value.str "A"] rfl rfl rfl rfl rfl

/-- C2: group references are expanded recursively and spliced in place:
with metadata `{__always__: [foo], __dev__: [bar, __build__],
__build__: [baz]}` and package deps `[__dev__, libx]`,
`convert("pkg")['all'] = [foo, bar, baz, libx]`. -/
theorem convert_recursive_group_expansion :
    convert_all 10 content2 "pkg" =
      some [Value.str "foo", Value.str "bar", Value.str "baz", Value.str "libx"] := rfl

/-- C4 counterexample: with `__always__ = [a, a]`, the unknown package
resolves to `[a]` (deduplicated), which is not the expanded `__always__`
list `[a, a]`; the claim's "equals exactly the expanded baseline list" fails
on documents whose baseline expansion contains duplicates. -/
theorem unknown_package_baseline_counterexample :
    lookupD content0 "doesnotexist" = none ∧
    expandAlways 5 meta0 = some [Value.str "a", Value.str "a"] ∧
    convert_all 5 content0 "doesnotexist" = some [Value.str "a"] ∧
    ([Value.str "a"] : List Value) ≠ [Value.str "a", Value.str "a"] := by
  refine ⟨rfl, rfl, rfl, ?_⟩
  intro h
  simp at h

/-- C4 (amended): for every package name with no entry in the document,
`convert` succeeds and its `'all'` list is the expanded `__always__`
baseline with duplicates removed keeping first occurrences (empty when
`__always__` is absent). -/
theorem unknown_package_baseline_dedup (fuel : Nat) (content : Dict) (pkg : String)
    (meta : Dict) (b : List Value)
    (hm : metaOf content = some meta)
    (hb : expandAlways (fuel + 1) meta = some b)
    (hh : b.all Value.hashable = true)
    (hp : lookupD content pkg = none) :
    convert_all (fuel + 1) content pkg = some b.eraseDups := by
  have hd : pkgDepsOf content pkg = some [] := by simp [pkgDepsOf, hp]
  have he : expand_deps (fuel + 1) (rootMapping meta) [] = some [] := rfl
  have h := convert_all_eraseDups (fuel + 1) content pkg meta b [] []
    hm hb hd he (by simpa using hh)
  simpa using h

/-- C4 witness: unknown package over `__always__ = [a, a]` yields `[a]`. -/
theorem unknown_package_baseline_dedup_witness :
    metaOf content0 = some meta0 ∧
    expandAlways 5 meta0 = some [Value.str "a", Value.str "a"] ∧
    ([Value.str "a", Value.str "a"] : List Value).all Value.hashable = true ∧
    lookupD content0 "doesnotexist" = none ∧
    convert_all 5 content0 "doesnotexist" = some [Value.str "a"] := by
  refine ⟨rfl, rfl, rfl, rfl, ?_⟩
  exact unknown_package_baseline_dedup 4 content0 "doesnotexist" meta0
    [Value.str "a", Value.str "a"] rfl rfl rfl rfl

/-! ## Idempotence of expansion on fully-expanded input -/

/-- A token that `_expand_deps` emits unchanged: either not a string, or a
string that resolves (after bare-name promotion) to no list-valued group
definition in the mapping root or in `__meta__`. -/
def isLiteralTok (mapping meta : Dict) : Value → Bool
  | .str s =>
    (listAt mapping (promoteLookup mapping meta s)).isNone &&
    (listAt meta (promoteLookup mapping meta s)).isNone
  | _ => true

/-- No token of the list is a group reference. -/
def noGroupRefs (mapping meta : Dict) (items : List Value) : Bool :=
  items.all (isLiteralTok mapping meta)

theorem expandLoop_all_literal (f : Dict → List Value → Option (List Value))
    (mapping meta : Dict) (items : List Value)
    (h : noGroupRefs mapping meta items = true) :
    expandLoop f mapping meta items = some items := by
  induction items with
  | nil => rfl
  | cons item rest ih =>
    simp only [noGroupRefs, List.all_cons, Bool.and_eq_true] at h
    obtain ⟨h1, h2⟩ := h
    have hrest := ih h2
    cases item with
    | str s =>
      simp only [isLiteralTok, Bool.and_eq_true, Option.isNone_iff_eq_none] at h1
      obtain ⟨ha, hb⟩ := h1
      simp [expandLoop, ha, hb, hrest]
    | int n => simp [expandLoop, hrest]
    | list l => simp [expandLoop, hrest]
    | table t => simp [expandLoop, hrest]

/-- C8: expansion is idempotent on fully-expanded input: a token list with
no remaining group references (neither by explicit `__name__` syntax nor by
bare-name promotion, in the mapping root or metadata) is returned
unchanged by `_expand_deps`. -/
theorem expand_deps_idempotent (fuel : Nat) (mapping meta : Dict) (items : List Value)
    (hm : metaOf mapping = some meta)
    (h : noGroupRefs mapping meta items = true) :
    expand_deps (fuel + 1) mapping items = some items := by
  simp [expand_deps, hm, expandLoop_all_literal _ _ _ _ h]

/-- C8 witness: a literal list below `meta1` is returned unchanged. -/
theorem expand_deps_idempotent_witness :
    metaOf (rootMapping meta1) = some meta1 ∧
    noGroupRefs (rootMapping meta1) meta1
      [Value.str "A", Value.str "gcc", Value.int 3] = true ∧
    expand_deps 3 (rootMapping meta1) [Value.str "A", Value.str "gcc", Value.int 3] =
      some [Value.str "A", Value.str "gcc", Value.int 3] := by
  refine ⟨rfl, rfl, ?_⟩
  exact expand_deps_idempotent 2 (rootMapping meta1) meta1
    [Value.str "A", Value.str "gcc", Value.int 3] rfl rfl

theorem expandLoop_missing_group (f : Dict → List Value → Option (List Value))
    (mapping meta : Dict) (s : String) (rest : List Value)
    (hlk : promoteLookup mapping meta s = s)
    (h1 : listAt mapping s = none)
    (h2 : listAt meta s = none) :
    expandLoop f mapping meta (Value.str s :: rest) =
      (expandLoop f mapping meta rest).map (fun r => Value.str s :: r) := by
  simp only [expandLoop, hlk, h1, h2]
  cases expandLoop f mapping meta rest <;> rfl

/-- C9: a token with the reserved `__...__` delimiter pattern but no
corresponding list-valued group definition is emitted unchanged as a
literal and never causes an error: the expansion of `tok :: rest` is
exactly `tok` consed onto the expansion of `rest`. -/
theorem unresolved_group_reference_is_literal (fuel : Nat) (mapping meta : Dict)
    (s : String) (rest : List Value)
    (hm : metaOf mapping = some meta)
    (hpre : pyStartsWith s "__" = true)
    (_hsuf : pyEndsWith s "__" = true)
    (h1 : listAt mapping s = none)
    (h2 : listAt meta s = none) :
    expand_deps (fuel + 1) mapping (Value.str s :: rest) =
      (expand_deps (fuel + 1) mapping rest).map (fun r => Value.str s :: r) := by
  have hlk : promoteLookup mapping meta s = s := by simp [promoteLookup, hpre]
  simp [expand_deps, hm,
    expandLoop_missing_group (fun m its => expand_deps fuel m its) mapping meta s rest hlk h1 h2]

/-- C9 witness: `__missing__` has no definition in `meta1`; it is kept
verbatim in the output. -/
theorem unresolved_group_reference_is_literal_witness :
    metaOf (rootMapping meta1) = some meta1 ∧
    pyStartsWith "__missing__" "__" = true ∧
    pyEndsWith "__missing__" "__" = true ∧
    listAt (rootMapping meta1) "__missing__" = none ∧
    listAt meta1 "__missing__" = none ∧
    expand_deps 3 (rootMapping meta1) [Value.str "__missing__", Value.str "gcc"] =
      (expand_deps 3 (rootMapping meta1) [Value.str "gcc"]).map
        (fun r => Value.str "__missing__" :: r) := by
  refine ⟨rfl, rfl, rfl, rfl, rfl, ?_⟩
  exact unresolved_group_reference_is_literal 2 (rootMapping meta1) meta1
    "__missing__" [Value.str "gcc"] rfl rfl rfl rfl rfl

/-! ## The resolver object: lazy, memoized document loading

I/O is abstracted: `localLoad` models what `_get_local_content` would
return for this resolver's `(distro, version)` (a parsed document, or
`FileNotFoundError`), and `repoLoad` models `_get_repo_content` likewise.
`_content` is explicit state threaded through the methods. -/

/-- The exceptions the engine can raise. -/
inductive PyErr where
  | notFound
  | valueError
  | keyError
  | dynError
deriving DecidableEq

/-- `SysDepSource`: where mapping documents are retrieved from. -/
inductive SysDepSource where
  | LOCAL
  | REPO
deriving DecidableEq

/-- The `Pip2SysDep` resolver: constructor arguments plus the `_content`
memoization cell. -/
structure Pip2SysDep where
  source : SysDepSource
  os_distro : String
  os_version : String
  content : Option Dict

/-- Python `a or b` on an optional string (`None` and `""` are falsy). -/
def pyOrStr (o : Option String) (d : String) : String :=
  match o with
  | some s => if s = "" then d else s
  | none => d

/-- `Pip2SysDep.__init__`: records source and OS fields (detection result is
a parameter), sets `_content = None`, and performs no loading. -/
def Pip2SysDep.init (source : SysDepSource) (os_distro os_version : Option String)
    (detected : String × String) : Pip2SysDep :=
  if os_distro.isNone || os_version.isNone then
    { source := source, os_distro := pyOrStr os_distro detected.1,
      os_version := pyOrStr os_version detected.2, content := none }
  else
    { source := source, os_distro := os_distro.getD "",
      os_version := os_version.getD "", content := none }

/-- The loader `_get_content` dispatches to, by source mode. -/
def selectLoad (source : SysDepSource) (localLoad repoLoad : Except PyErr Dict) :
    Except PyErr Dict :=
  match source with
  | .LOCAL => localLoad
  | .REPO => repoLoad

/-- `Pip2SysDep._get_content`: return the cached document, or load once and
cache it; a load failure leaves `_content` unset and propagates. -/
def Pip2SysDep.get_content (self : Pip2SysDep) (localLoad repoLoad : Except PyErr Dict) :
    Except PyErr (Dict × Pip2SysDep) :=
  match self.content with
  | some c => .ok (c, self)
  | none =>
    match selectLoad self.source localLoad repoLoad with
    | .ok d => .ok (d, { self with content := some d })
    | .error e => .error e

/-- `Pip2SysDep.convert`: load (or reuse) the document and produce the
`{'all': flat}` dictionary. -/
def Pip2SysDep.convert (self : Pip2SysDep) (fuel : Nat)
    (localLoad repoLoad : Except PyErr Dict) (pkg : String) :
    Except PyErr (List (String × List Value) × Pip2SysDep) :=
  match self.get_content localLoad repoLoad with
  | .error e => .error e
  | .ok (content, self') =>
    match convert_all fuel content pkg with
    | some flat => .ok ([("all", flat)], self')
    | none => .error .dynError

/-- C3: the document is loaded at most once per resolver: after one
successful `_get_content`, every later call returns the identical cached
document and identical state, whatever the loaders would now return — so
nothing is re-read or re-fetched. -/
theorem get_content_memoized (self self' : Pip2SysDep)
    (localLoad repoLoad localLoad' repoLoad' : Except PyErr Dict) (c : Dict)
    (h : self.get_content localLoad repoLoad = .ok (c, self')) :
    self'.content = some c ∧ self'.get_content localLoad' repoLoad' = .ok (c, self') := by
  unfold Pip2SysDep.get_content at h
  split at h
  case h_1 c0 heq =>
    simp only [Except.ok.injEq, Prod.mk.injEq] at h
    obtain ⟨hc, hs⟩ := h
    subst hc
    subst hs
    exact ⟨heq, by simp [Pip2SysDep.get_content, heq]⟩
  case h_2 heq =>
    split at h
    case h_1 d hload =>
      simp only [Except.ok.injEq, Prod.mk.injEq] at h
      obtain ⟨hc, hs⟩ := h
      subst hc
      subst hs
      exact ⟨rfl, by simp [Pip2SysDep.get_content]⟩
    case h_2 e hload =>
      cases h

/-- C3 witness: a second `_get_content` on a loaded resolver returns the
cached document even when both loaders now fail. -/
theorem get_content_memoized_witness :
    (Pip2SysDep.mk .LOCAL "ubuntu" "24.04" none).get_content (.ok content1) (.ok content1)
      = .ok (content1, Pip2SysDep.mk .LOCAL "ubuntu" "24.04" (some content1)) ∧
    (Pip2SysDep.mk .LOCAL "ubuntu" "24.04" (some content1)).content = some content1 ∧
    (Pip2SysDep.mk .LOCAL "ubuntu" "24.04" (some content1)).get_content
        (.error .notFound) (.error .notFound)
      = .ok (content1, Pip2SysDep.mk .LOCAL "ubuntu" "24.04" (some content1)) := by
  refine ⟨rfl, ?_, ?_⟩
  · exact (get_content_memoized (Pip2SysDep.mk .LOCAL "ubuntu" "24.04" none)
      (Pip2SysDep.mk .LOCAL "ubuntu" "24.04" (some content1)) (.ok content1) (.ok content1)
      (.error .notFound) (.error .notFound) content1 rfl).1
  · exact (get_content_memoized (Pip2SysDep.mk .LOCAL "ubuntu" "24.04" none)
      (Pip2SysDep.mk .LOCAL "ubuntu" "24.04" (some content1)) (.ok content1) (.ok content1)
      (.error .notFound) (.error .notFound) content1 rfl).2

/-- C7: construction never loads the document: `_content` is `None` after
`__init__`, and when the selected source has no document, the
`FileNotFoundError` surfaces on the first resolution call — it is never
replaced by an empty document. -/
theorem construction_defers_loading (source : SysDepSource) (d v : Option String)
    (det : String × String) (fuel : Nat) (pkg : String)
    (localLoad repoLoad : Except PyErr Dict)
    (hload : selectLoad source localLoad repoLoad = .error .notFound) :
    (Pip2SysDep.init source d v det).content = none ∧
    (Pip2SysDep.init source d v det).convert fuel localLoad repoLoad pkg
      = .error .notFound := by
  have hcontent : (Pip2SysDep.init source d v det).content = none := by
    unfold Pip2SysDep.init
    split <;> rfl
  have hsource : (Pip2SysDep.init source d v det).source = source := by
    unfold Pip2SysDep.init
    split <;> rfl
  refine ⟨hcontent, ?_⟩
  unfold Pip2SysDep.convert Pip2SysDep.get_content
  rw [hcontent, hsource, hload]

/-- C7 witness: a LOCAL resolver over a missing file raises on first
`convert`, not at construction. -/
theorem construction_defers_loading_witness :
    selectLoad .LOCAL (.error .notFound) (.ok content1) = .error .notFound ∧
    (Pip2SysDep.init .LOCAL (some "gentoo") (some "2.17") ("x", "y")).content = none ∧
    (Pip2SysDep.init .LOCAL (some "gentoo") (some "2.17") ("x", "y")).convert 5
        (.error .notFound) (.ok content1) "requests" = .error .notFound := by
  refine ⟨rfl, ?_, ?_⟩
  · exact (construction_defers_loading .LOCAL (some "gentoo") (some "2.17") ("x", "y")
      5 "requests" (.error .notFound) (.ok content1) rfl).1
  · exact (construction_defers_loading .LOCAL (some "gentoo") (some "2.17") ("x", "y")
      5 "requests" (.error .notFound) (.ok content1) rfl).2

/-! ## convert_list -/

/-- `d[k] = v` on a Python dictionary: replace in place, or append. -/
def setKey {α : Type} : List (String × α) → String → α → List (String × α)
  | [], k, v => [(k, v)]
  | (k0, v0) :: rest, k, v =>
    if k0 = k then (k, v) :: rest else (k0, v0) :: setKey rest k v

/-- `result[dep_type].update(deps)`: add the elements of `deps` not already
in the set (modelled as a duplicate-free list; only membership matters). -/
def setUpdate (s deps : List Value) : List Value :=
  deps.foldl (fun acc d => if acc.elem d then acc else acc ++ [d]) s

/-- The `for dep in deps` loop of `convert_list`: append each dependency not
yet seen (the `seen` set always holds exactly the elements of `all_flat`). -/
def dedupAppend (allFlat deps : List Value) : List Value :=
  deps.foldl (fun acc d => if acc.elem d then acc else acc ++ [d]) allFlat

/-- The `if dep_type not in result` / `result[dep_type].update(deps)` step
of `convert_list`. -/
def updateResult (res : List (String × List Value)) (ty : String) (deps : List Value) :
    List (String × List Value) :=
  match lookupD res ty with
  | some s => setKey res ty (setUpdate s deps)
  | none => res ++ [(ty, setUpdate [] deps)]

/-- The `for pkg in pip_packages` loop of `convert_list`, threading the
per-type sets, the ordered `all_flat` list and the resolver state. -/
def Pip2SysDep.convert_list_go (fuel : Nat) (localLoad repoLoad : Except PyErr Dict) :
    Pip2SysDep → List (String × List Value) → List Value → List String →
    Except PyErr (List (String × List Value) × List Value × Pip2SysDep)
  | self, res, allFlat, [] => .ok (res, allFlat, self)
  | self, res, allFlat, pkg :: rest =>
    match self.convert fuel localLoad repoLoad pkg with
    | .error e => .error e
    | .ok (pkgDeps, self') =>
      let st := pkgDeps.foldl
        (fun st kv => (updateResult st.1 kv.1 kv.2, dedupAppend st.2 kv.2)) (res, allFlat)
      Pip2SysDep.convert_list_go fuel localLoad repoLoad self' st.1 st.2 rest

/-- `Pip2SysDep.convert_list`: fold `convert` over the packages, then set
`out['all']` to the ordered, deduplicated flat list. -/
def Pip2SysDep.convert_list (self : Pip2SysDep) (fuel : Nat)
    (localLoad repoLoad : Except PyErr Dict) (pkgs : List String) :
    Except PyErr (List (String × List Value) × Pip2SysDep) :=
  match Pip2SysDep.convert_list_go fuel localLoad repoLoad self [] [] pkgs with
  | .error e => .error e
  | .ok (res, allFlat, self') => .ok (setKey res "all" allFlat, self')

/-- C10: `convert_list([])` returns exactly `{'all': []}` with the resolver
untouched, for every resolver and every loader behaviour — in particular it
never attempts to load the mapping document, so it succeeds even when no
document exists for the resolver's `(distro, version)`. -/
theorem convert_list_empty_packages (fuel : Nat)
    (localLoad repoLoad : Except PyErr Dict) (self : Pip2SysDep) :
    self.convert_list fuel localLoad repoLoad [] = .ok ([("all", [])], self) := rfl

/-! ## Command rendering -/

/-- Python `p in s` substring test (over characters). -/
def subIn (needle : List Char) : List Char → Bool
  | [] => startsWithChars needle []
  | c :: cs => startsWithChars needle (c :: cs) || subIn needle cs

/-- Python `needle in hay` for strings. -/
def strContains (hay needle : String) : Bool := subIn needle.data hay.data

/-- `string.Template` identifier start: `[_a-zA-Z]`. -/
def isIdentStart (c : Char) : Bool := c.isAlpha || c == '_'

/-- `string.Template` identifier continuation: `[_a-zA-Z0-9]`. -/
def isIdentCont (c : Char) : Bool := c.isAlphanum || c == '_'

/-- `Template(tpl).substitute(package_manager=pm)`: `$$` escapes to `$`,
`${name}` and `$name` substitute; only `package_manager` is defined (any
other identifier is a `KeyError`), and a `$` not forming a valid
placeholder is a `ValueError`.  The fuel starts at the character count;
every step consumes at least one character per unit, so it never runs
out. -/
def substGo (pm : String) : Nat → List Char → Except PyErr (List Char)
  | _, [] => .ok []
  | 0, _ :: _ => .error .dynError
  | fuel + 1, c :: cs =>
    if c == '$' then
      match cs with
      | [] => .error .valueError
      | d :: ds =>
        if d == '$' then (substGo pm fuel ds).map (fun r => '$' :: r)
        else if d == '{' then
          match ds.dropWhile isIdentCont with
          | '}' :: tail =>
            match ds.takeWhile isIdentCont with
            | [] => .error .valueError
            | i0 :: irest =>
              if isIdentStart i0 then
                if String.mk (i0 :: irest) = "package_manager" then
                  (substGo pm fuel tail).map (fun r => pm.data ++ r)
                else .error .keyError
              else .error .valueError
          | _ => .error .valueError
        else if isIdentStart d then
          if String.mk (d :: ds.takeWhile isIdentCont) = "package_manager" then
            (substGo pm fuel (ds.dropWhile isIdentCont)).map (fun r => pm.data ++ r)
          else .error .keyError
        else .error .valueError
    else (substGo pm fuel cs).map (fun r => c :: r)

/-- `Template(install_cmd).substitute(package_manager=pm)`. -/
def templateSubstitute (tpl pm : String) : Except PyErr String :=
  (substGo pm tpl.data.length tpl.data).map String.mk

/-- Python `<` on strings: lexicographic by code point. -/
def charListLt : List Char → List Char → Bool
  | _, [] => false
  | [], _ :: _ => true
  | a :: as, b :: bs =>
    if a.toNat < b.toNat then true
    else if b.toNat < a.toNat then false
    else charListLt as bs

/-- Python `s < t` for strings. -/
def strLt (s t : String) : Bool := charListLt s.data t.data

/-- Insert into an ascending list, after every smaller element. -/
def insertSorted (s : String) : List String → List String
  | [] => [s]
  | t :: rest => if strLt t s then t :: insertSorted s rest else s :: t :: rest

/-- Python `sorted(xs)` (insertion sort; stability is irrelevant after
deduplication). -/
def sortStrs : List String → List String
  | [] => []
  | s :: rest => insertSorted s (sortStrs rest)

/-- Python `set(xs)` as a membership-faithful duplicate-free list. -/
def dedupStrs (seen : List String) : List String → List String
  | [] => []
  | x :: xs => if seen.contains x then dedupStrs seen xs else x :: dedupStrs (x :: seen) xs

/-- `" ".join(sorted(set(all_deps)))`. -/
def joinSortedSet (l : List String) : String :=
  String.intercalate " " (sortStrs (dedupStrs [] l))

/-- `meta.get('commands', {})` (a non-table entry is outside the modelled
fragment). -/
def commandsOf (meta : Dict) : Option Dict :=
  match lookupD meta "commands" with
  | none => some []
  | some (.table t) => some t
  | some _ => none

/-- `meta.get('install_command', 'apt install -y')`: the legacy fallback,
used as-is (even when empty). -/
def legacyInstall (meta : Dict) : Except PyErr String :=
  match lookupD meta "install_command" with
  | none => .ok "apt install -y"
  | some (.str s) => .ok s
  | some _ => .error .dynError

/-- The template selection step of `get_install_command`:
`commands.get('install') or meta.get('install_command', 'apt install -y')`
for `'install'`; for any other name `commands.get(command)` with
`ValueError` on a falsy result (missing or empty). -/
def selectCommand (commands meta : Dict) (command : String) : Except PyErr String :=
  if command = "install" then
    match lookupD commands "install" with
    | some (.str s) => if s = "" then legacyInstall meta else .ok s
    | some _ => .error .dynError
    | none => legacyInstall meta
  else
    match lookupD commands command with
    | some (.str s) => if s = "" then .error .valueError else .ok s
    | some _ => .error .dynError
    | none => .error .valueError

/-- `meta.get('package_manager', 'apt')`. -/
def packageManagerOf (meta : Dict) : Except PyErr String :=
  match lookupD meta "package_manager" with
  | none => .ok "apt"
  | some (.str s) => .ok s
  | some _ => .error .dynError

/-- Flatten all dependency categories, in order. -/
def flattenDeps (dependencies : List (String × List String)) : List String :=
  dependencies.foldl (fun acc kv => acc ++ kv.2) []

/-- `Pip2SysDep.get_install_command` on a loaded document: select the
template, substitute `${package_manager}` when present, and append the
sorted deduplicated dependency list (or return the rendered template alone
when it is empty). -/
def get_install_command (content : Dict) (dependencies : List (String × List String))
    (command : String) : Except PyErr String :=
  match metaOf content with
  | none => .error .dynError
  | some meta =>
    match commandsOf meta with
    | none => .error .dynError
    | some commands =>
      match selectCommand commands meta command with
      | .error e => .error e
      | .ok install_cmd =>
        match
          (if strContains install_cmd "${package_manager}" then
            match packageManagerOf meta with
            | .error e => (.error e : Except PyErr String)
            | .ok pm => templateSubstitute install_cmd pm
          else (.ok install_cmd : Except PyErr String)) with
        | .error e => .error e
        | .ok rendered =>
          let deps_str := joinSortedSet (flattenDeps dependencies)
          .ok (if deps_str = "" then rendered else rendered ++ " " ++ deps_str)

def meta5 : Dict :=
  [("commands", Value.table [("install", Value.str "${package_manager} install -y")]),
   ("package_manager", Value.str "apt")]

def content5 : Dict := [("__meta__", Value.table meta5)]

/-- C5: `get_install_command` flattens all categories, sorts
lexicographically, deduplicates, joins with single spaces and appends with
one separating space: the resolved set `{a, c, b}` under the template
`"${package_manager} install -y"` with package manager `apt` renders to
`"apt install -y a b c"` (also across several categories with duplicates),
and an empty flattened set returns the rendered template unchanged. -/
theorem install_command_rendering :
    get_install_command content5 [("all", ["a", "c", "b"])] "install"
      = .ok "apt install -y a b c" ∧
    get_install_command content5 [("x", ["c", "a"]), ("y", ["b", "a"])] "install"
      = .ok "apt install -y a b c" ∧
    get_install_command content5 [] "install" = .ok "apt install -y" ∧
    get_install_command content5 [("all", [])] "install" = .ok "apt install -y" :=
  ⟨rfl, rfl, rfl, rfl⟩

/-- Well-formedness of the `commands` table per the mapping-document format:
every declared command template is a non-empty string (Python's truthiness
test makes an empty template behave like a missing one). -/
def commandsWF (commands : Dict) : Bool :=
  commands.all (fun kv => match kv.2 with | .str s => s != "" | _ => false)

/-- Well-formedness of the legacy key: `install_command`, when present, is a
string. -/
def legacyWF (meta : Dict) : Bool :=
  match lookupD meta "install_command" with
  | none => true
  | some (.str _) => true
  | some _ => false

/-- Specification-side lookup rule, from the claim's words: the template for
`install` comes from the commands table, falling back to the legacy
`install_command` key, then to the hard default `"apt install -y"`; any
other command name with no commands-table entry fails. -/
def commandTemplateSpec (commands meta : Dict) (command : String) : Except PyErr String :=
  match lookupD commands command with
  | some (.str s) => .ok s
  | _ =>
    if command = "install" then
      match lookupD meta "install_command" with
      | some (.str s) => .ok s
      | _ => .ok "apt install -y"
    else .error .valueError

theorem commandsWF_lookup (commands : Dict) (k : String) (v : Value)
    (hwf : commandsWF commands = true) (h : lookupD commands k = some v) :
    ∃ s, v = Value.str s ∧ s ≠ "" := by
  induction commands with
  | nil => cases h
  | cons kv rest ih =>
    obtain ⟨k0, v0⟩ := kv
    simp only [commandsWF, List.all_cons, Bool.and_eq_true] at hwf
    obtain ⟨h0, hrest⟩ := hwf
    simp only [lookupD] at h
    by_cases hk : k0 = k
    · rw [if_pos hk] at h
      injection h with h
      subst h
      cases v0 with
      | str s => exact ⟨s, rfl, by simpa using h0⟩
      | int n => simp at h0
      | list l => simp at h0
      | table t => simp at h0
    · rw [if_neg hk] at h
      exact ih hrest h

/-- C6: the command-template lookup of `get_install_command` follows the
rule: for `install`, the commands table, then the legacy `install_command`
key, then the hard default `"apt install -y"`; for any other command name
with no commands-table entry, a `ValueError` (unknown command) — never a
default. -/
theorem command_template_lookup (commands meta : Dict) (command : String)
    (hwf : commandsWF commands = true) (hl : legacyWF meta = true) :
    selectCommand commands meta command = commandTemplateSpec commands meta command := by
  by_cases hc : command = "install"
  · subst hc
    cases h : lookupD commands "install" with
    | none =>
      simp only [selectCommand, commandTemplateSpec, h, if_pos rfl]
      cases hleg : lookupD meta "install_command" with
      | none => simp [legacyInstall, hleg]
      | some v =>
        cases v with
        | str s => simp [legacyInstall, hleg]
        | int n => simp [legacyWF, hleg] at hl
        | list l => simp [legacyWF, hleg] at hl
        | table t => simp [legacyWF, hleg] at hl
    | some v =>
      obtain ⟨s, rfl, hs⟩ := commandsWF_lookup _ _ _ hwf h
      simp [selectCommand, commandTemplateSpec, h, hs]
  · cases h : lookupD commands command with
    | none => simp [selectCommand, commandTemplateSpec, h, hc]
    | some v =>
      obtain ⟨s, rfl, hs⟩ := commandsWF_lookup _ _ _ hwf h
      simp [selectCommand, commandTemplateSpec, h, hc, hs]

def commands6 : Dict := [("update", Value.str "apt update")]

def meta6 : Dict :=
  [("commands", Value.table commands6),
   ("install_command", Value.str "zypper install")]

def content6 : Dict := [("__meta__", Value.table meta6)]

/-- C6 witness: with a commands table declaring only `update`, the rule
gives `install` the legacy template and an undeclared `remove` command the
`ValueError`; `get_install_command` surfaces both. -/
theorem command_template_lookup_witness :
    commandsWF commands6 = true ∧
    legacyWF meta6 = true ∧
    selectCommand commands6 meta6 "install" = commandTemplateSpec commands6 meta6 "install" ∧
    selectCommand commands6 meta6 "install" = .ok "zypper install" ∧
    selectCommand commands6 meta6 "remove" = commandTemplateSpec commands6 meta6 "remove" ∧
    selectCommand commands6 meta6 "remove" = .error .valueError ∧
    get_install_command content6 [("all", ["a"])] "install" = .ok "zypper install a" ∧
    get_install_command content6 [("all", ["a"])] "remove" = .error .valueError := by
  refine ⟨rfl, rfl, ?_, rfl, ?_, rfl, rfl, rfl⟩
  · exact command_template_lookup commands6 meta6 "install" rfl rfl
  · exact command_template_lookup commands6 meta6 "remove" rfl rfl
